import Mathlib

/-!
Verification of the YouTube-thumbnail processing pipeline.

The development shallowly embeds the two Python source files of the
repository (src/api/main.py and src/api/process_video.py).  Python strings
are modelled as `List Char`, Python floats (audio durations and dBFS
loudness values) as `ℚ`, and Python ints as `ℕ`/`ℤ`.  An audio artifact is
abstracted by its duration in seconds together with the per-window dBFS
loudness function, which is all that `extract_audio_peaks` observes of it.
The orchestrator endpoint `process_video` is embedded as a pure function
from an environment describing the outcomes of the external stage calls to
a record of the run: its outcome, the temporary artifacts created and
deleted, and every frame-extraction invocation with its time offset.
-/

/-- Convert a string literal to the character-list model of Python strings. -/
def chars (s : String) : List Char := s.data

/-- The decimal digit character for a value below ten, mirroring the digits
produced by Python's decimal formatting. -/
def digitChar (n : ℕ) : Char := Char.ofNat (48 + n)

/-- Fuel-indexed decimal rendering of a natural number, least significant
digit last, exactly as Python's str/format renders a nonnegative int. -/
def natDigitsAux : ℕ → ℕ → List Char
  | 0, _ => []
  | fuel + 1, n =>
      if n < 10 then [digitChar n]
      else natDigitsAux fuel (n / 10) ++ [digitChar (n % 10)]

/-- Decimal rendering of a natural number (Python's default int rendering). -/
def natDigits (n : ℕ) : List Char := natDigitsAux (n + 1) n

/-- Numeric value of a digit string, mirroring Python's int() on the strings
this pipeline produces. -/
def parseNat (l : List Char) : ℕ := List.foldl (fun acc c => acc * 10 + (c.toNat - 48)) 0 l

/-- Split a character list at every colon, mirroring Python's
str.split applied with a colon separator. -/
def splitOnColon : List Char → List (List Char)
  | [] => [[]]
  | c :: rest =>
      if c = ':' then [] :: splitOnColon rest
      else
        match splitOnColon rest with
        | [] => [[c]]
        | g :: gs => (c :: g) :: gs

/-- Zero-pad a rendered natural number to width two, mirroring the Python
format specification 02d used in format_time. -/
def pad2 (n : ℕ) : List Char := if n < 10 then '0' :: natDigits n else natDigits n

/-- Embedding of format_time (src/api/main.py lines 91-96): render a number
of seconds as HH:MM:SS with each field zero-padded to width two. -/
def format_time (seconds : ℕ) : List Char :=
  pad2 (seconds / 3600) ++ ':' :: (pad2 (seconds % 3600 / 60) ++ ':' :: pad2 (seconds % 60))

/-- Embedding of the timestamp parse inside extract_frame
(src/api/main.py lines 102-103): split on colons, convert the three fields
with int(), and combine as h * 3600 + m * 60 + s.  A shape other than three
fields is unreachable on this pipeline's inputs and is mapped to 0. -/
def parse_time (t : List Char) : ℕ :=
  match (splitOnColon t).map parseNat with
  | [h, m, s] => h * 3600 + m * 60 + s
  | _ => 0

/-- Embedding of int(audio.duration_seconds) (src/api/main.py line 77):
truncation of the nonnegative real duration to whole seconds. -/
def duration_seconds (d : ℚ) : ℕ := (⌊d⌋).toNat

/-- The descending comparison used by Python's sorted(reverse := True) on
the (loudness, index) tuples of extract_audio_peaks: a tuple sorts no later
than another when it is lexicographically greater or equal. -/
def peakGE (a b : ℚ × ℕ) : Prop := b.1 < a.1 ∨ (b.1 = a.1 ∧ b.2 ≤ a.2)

instance : DecidableRel peakGE := fun a b => by unfold peakGE; infer_instance

/-- Strict lexicographic descending comparison on (loudness, index) tuples. -/
def peakGT (a b : ℚ × ℕ) : Prop := b.1 < a.1 ∨ (b.1 = a.1 ∧ b.2 < a.2)

instance : IsTotal (ℚ × ℕ) peakGE where
  total a b := by
    rcases lt_trichotomy a.1 b.1 with h | h | h
    · exact Or.inr (Or.inl h)
    · rcases Nat.le_total b.2 a.2 with h2 | h2
      · exact Or.inl (Or.inr ⟨h.symm, h2⟩)
      · exact Or.inr (Or.inr ⟨h, h2⟩)
    · exact Or.inl (Or.inl h)

instance : IsTrans (ℚ × ℕ) peakGE where
  trans a b c hab hbc := by
    rcases hab with h1 | ⟨h1, h1le⟩ <;> rcases hbc with h2 | ⟨h2, h2le⟩
    · exact Or.inl (lt_trans h2 h1)
    · exact Or.inl (h2 ▸ h1)
    · exact Or.inl (h1 ▸ h2)
    · exact Or.inr ⟨h2.trans h1, le_trans h2le h1le⟩

/-- Embedding of the loudness_scores accumulation loop of
extract_audio_peaks (src/api/main.py lines 78-83): one (loudness, index)
tuple per whole-second window. -/
def loudness_scores (L : ℕ → ℚ) (D : ℕ) : List (ℚ × ℕ) :=
  (List.range D).map fun i => (L i, i)

/-- Embedding of sorted(loudness_scores, reverse := True)
(src/api/main.py line 85): the scores sorted descending lexicographically.
All tuples are distinct (distinct indices), so any correct sort produces
the same list Python's stable sort does. -/
def ranked (L : ℕ → ℚ) (d : ℚ) : List (ℚ × ℕ) :=
  List.insertionSort peakGE (loudness_scores L (duration_seconds d))

/-- Embedding of top_peaks (src/api/main.py line 85): the five highest
ranked (loudness, index) tuples. -/
def top_peaks (L : ℕ → ℚ) (d : ℚ) : List (ℚ × ℕ) := (ranked L d).take 5

/-- Embedding of extract_audio_peaks (src/api/main.py lines 73-89 and
src/api/process_video.py lines 36-45): the top peaks rendered as
HH:MM:SS timestamps. -/
def extract_audio_peaks (L : ℕ → ℚ) (d : ℚ) : List (List Char) :=
  (top_peaks L d).map fun p => format_time p.2

/-- The three temporary artifacts of one pipeline run
(src/api/main.py lines 126-128). -/
inductive Artifact
  | video
  | audio
  | frame
deriving DecidableEq, Repr

/-- The pipeline stage at which a run fails, recovering the distinct error
paths of the orchestrator (the wrapped stage errors of
src/api/main.py lines 71, 89, 108, 118 and the bare IndexError at
line 144). -/
inductive Stage
  | download
  | audioExtract
  | analyze
  | transcribe
  | peakIndex
  | frame
deriving DecidableEq, Repr

/-- Embedding of the VideoResponse model (src/api/main.py lines 46-53).
The wall-clock timestamp field is outside the embedding. -/
structure VideoResponse where
  videoId : List Char
  title : List Char
  transcription : List Char
  wave_peaks : List (List Char)
  frame_url : List Char
  status : List Char
deriving DecidableEq, Repr

/-- Outcome of one run of the process_video endpoint: a complete response,
or a structured failure naming the failing stage. -/
inductive Outcome
  | success (resp : VideoResponse)
  | failure (s : Stage)
deriving DecidableEq, Repr

/-- Environment of one run: the request data, the per-run unique filename
tokens, the audio content (duration and per-window loudness), and the
outcome of each external call the orchestrator makes. -/
structure Env where
  videoId : List Char
  uuid1 : ℕ
  uuid2 : ℕ
  uuid3 : ℕ
  downloadOk : Bool
  audioWriteOk : Bool
  analyzeOk : Bool
  transcribeOk : Bool
  transcript : List Char
  frameOk : Bool
  duration : ℚ
  loudness : ℕ → ℚ

/-- Observable record of one run of the orchestrator: its outcome, the
temporary artifacts created, the artifacts deleted, and the time offsets
of every frame-extraction invocation. -/
structure Run where
  outcome : Outcome
  created : List Artifact
  deleted : List Artifact
  frameCalls : List ℕ
deriving DecidableEq, Repr

/-- The per-run temporary file name temp_{token}{ext}
(src/api/main.py lines 126-128). -/
def tempName (u : ℕ) (ext : List Char) : List Char :=
  chars ("temp_") ++ natDigits u ++ ext

/-- The video file name of a run of main.py (line 126). -/
def main_video_file (u : ℕ) : List Char := tempName u ('.' :: chars ("mp4"))

/-- The audio file name of a run of main.py (line 127). -/
def main_audio_file (u : ℕ) : List Char := tempName u ('.' :: chars ("mp3"))

/-- The frame file name of a run of main.py (line 128). -/
def main_frame_file (u : ℕ) : List Char := tempName u ('.' :: chars ("jpg"))

/-- The three temporary artifact paths of one run of main.py. -/
def main_run_paths (u1 u2 u3 : ℕ) : List (List Char) :=
  [main_video_file u1, main_audio_file u2, main_frame_file u3]

/-- The video file name of a run of process_video.py (line 71). -/
def pv_video_file (u : ℕ) : List Char := natDigits u ++ '.' :: chars ("mp4")

/-- The three temporary artifact paths of one run of process_video.py
(lines 71-73): only the video name carries a per-run token; the audio and
frame names are fixed. -/
def pv_run_paths (u : ℕ) : List (List Char) :=
  [pv_video_file u, chars ("temp.mp3"), chars ("frame.jpg")]

/-- The canonical watch URL built from the identifier
(src/api/main.py lines 59 and 155). -/
def watch_url (v : List Char) : List Char :=
  chars ("https://www.youtube.com/watch?v=") ++ v

/-- Embedding of the process_video endpoint (src/api/main.py lines
121-167).  The stages run in source order: download, audio write, loudness
analysis, transcription, the peaks[0] subscript, frame extraction.  Each
failing stage raises, the orchestrator catches, and no branch of the
handler deletes files; only the success path deletes the video and audio
files (lines 147-150) and the frame file is never deleted. -/
def process_video (e : Env) : Run :=
  if e.downloadOk = false then
    { outcome := Outcome.failure Stage.download, created := [], deleted := [], frameCalls := [] }
  else if e.audioWriteOk = false then
    { outcome := Outcome.failure Stage.audioExtract, created := [Artifact.video],
      deleted := [], frameCalls := [] }
  else if e.analyzeOk = false then
    { outcome := Outcome.failure Stage.analyze, created := [Artifact.video, Artifact.audio],
      deleted := [], frameCalls := [] }
  else if e.transcribeOk = false then
    { outcome := Outcome.failure Stage.transcribe, created := [Artifact.video, Artifact.audio],
      deleted := [], frameCalls := [] }
  else
    match (extract_audio_peaks e.loudness e.duration).head? with
    | none =>
        { outcome := Outcome.failure Stage.peakIndex,
          created := [Artifact.video, Artifact.audio], deleted := [], frameCalls := [] }
    | some t =>
        if e.frameOk = false then
          { outcome := Outcome.failure Stage.frame,
            created := [Artifact.video, Artifact.audio], deleted := [],
            frameCalls := [parse_time t] }
        else
          { outcome := Outcome.success
              { videoId := e.videoId,
                title := watch_url e.videoId,
                transcription := e.transcript,
                wave_peaks := extract_audio_peaks e.loudness e.duration,
                frame_url := chars ("/frames/") ++ main_frame_file e.uuid3,
                status := chars ("success") },
            created := [Artifact.video, Artifact.audio, Artifact.frame],
            deleted := [Artifact.video, Artifact.audio],
            frameCalls := [parse_time t] }

/-- Whether a character is a decimal digit character, the alphabet of
rendered tokens inside temporary file names. -/
def isDigitCh (c : Char) : Prop := ∃ k, k < 10 ∧ c = digitChar k

/-- A concrete run environment whose transcription call fails after the
download and audio-extraction stages already created their files. -/
def envC2 : Env :=
  { videoId := chars ("abc"), uuid1 := 0, uuid2 := 1, uuid3 := 2,
    downloadOk := true, audioWriteOk := true, analyzeOk := true, transcribeOk := false,
    transcript := chars (""), frameOk := true, duration := 2, loudness := fun _ => 0 }

/-- A concrete run environment with three seconds of audio whose
transcription call fails. -/
def envC6 : Env :=
  { videoId := chars ("xyz"), uuid1 := 3, uuid2 := 4, uuid3 := 5,
    downloadOk := true, audioWriteOk := true, analyzeOk := true, transcribeOk := false,
    transcript := chars (""), frameOk := true, duration := 3, loudness := fun _ => 0 }

/-- A concrete run environment in which every external stage succeeds on a
one-second audio track. -/
def envOk : Env :=
  { videoId := chars ("abc"), uuid1 := 0, uuid2 := 1, uuid3 := 2,
    downloadOk := true, audioWriteOk := true, analyzeOk := true, transcribeOk := true,
    transcript := chars ("hi"), frameOk := true, duration := 1, loudness := fun _ => 0 }

/-- A concrete run environment whose audio track has duration zero while
every external stage succeeds. -/
def envZero : Env :=
  { videoId := chars ("abc"), uuid1 := 6, uuid2 := 7, uuid3 := 8,
    downloadOk := true, audioWriteOk := true, analyzeOk := true, transcribeOk := true,
    transcript := chars (""), frameOk := true, duration := 0, loudness := fun _ => 0 }

/-- The complete response the fully successful concrete run returns. -/
def respOk : VideoResponse :=
  { videoId := envOk.videoId, title := watch_url envOk.videoId,
    transcription := envOk.transcript,
    wave_peaks := extract_audio_peaks envOk.loudness envOk.duration,
    frame_url := chars ("/frames/") ++ main_frame_file envOk.uuid3,
    status := chars ("success") }

/-- The fuel argument of natDigitsAux is irrelevant once it exceeds the
rendered number. -/
theorem natDigitsAux_congr :
    ∀ n f g : ℕ, n < f → n < g → natDigitsAux f n = natDigitsAux g n := by
  intro n
  induction n using Nat.strong_induction_on with
  | _ n ih =>
    intro f g hf hg
    match f, g with
    | f + 1, g + 1 =>
      simp only [natDigitsAux]
      by_cases h : n < 10
      · simp [h]
      · have hdiv : n / 10 < n := Nat.div_lt_self (by omega) (by omega)
        have hrec := ih (n / 10) hdiv f g (by omega) (by omega)
        simp [h, hrec]

/-- Unfolding equation for natDigits. -/
theorem natDigits_eq (n : ℕ) :
    natDigits n =
      if n < 10 then [digitChar n] else natDigits (n / 10) ++ [digitChar (n % 10)] := by
  by_cases h : n < 10
  · simp [natDigits, natDigitsAux, h]
  · have hdiv : n / 10 < n := Nat.div_lt_self (by omega) (by omega)
    have h1 : natDigits n = natDigitsAux n (n / 10) ++ [digitChar (n % 10)] := by
      simp [natDigits, natDigitsAux, h]
    rw [h1, natDigitsAux_congr (n / 10) n (n / 10 + 1) hdiv (by omega)]
    simp [natDigits, h]

/-- A rendered natural number is never the empty string. -/
theorem natDigits_ne_nil (n : ℕ) : natDigits n ≠ [] := by
  rw [natDigits_eq]
  by_cases h : n < 10 <;> simp [h]

/-- Every character of a rendered natural number is a decimal digit. -/
theorem natDigits_mem (n : ℕ) : ∀ c ∈ natDigits n, ∃ k, k < 10 ∧ c = digitChar k := by
  induction n using Nat.strong_induction_on with
  | _ n ih =>
    intro c hc
    rw [natDigits_eq] at hc
    by_cases h : n < 10
    · simp [h] at hc
      exact ⟨n, h, hc⟩
    · simp only [h, if_false, List.mem_append, List.mem_singleton] at hc
      rcases hc with hc | hc
      · exact ih (n / 10) (Nat.div_lt_self (by omega) (by omega)) c hc
      · exact ⟨n % 10, Nat.mod_lt n (by omega), hc⟩

/-- Character code of a digit character. -/
theorem digitChar_toNat : ∀ k, k < 10 → (digitChar k).toNat = 48 + k := by decide

/-- Folding the parse step from an arbitrary accumulator shifts the
accumulator by the length of the string. -/
theorem parse_shift (step : ℕ → Char → ℕ) (hstep : ∀ a c, step a c = a * 10 + (c.toNat - 48)) :
    ∀ l : List Char, ∀ acc : ℕ,
      List.foldl step acc l = acc * 10 ^ l.length + List.foldl step 0 l := by
  intro l
  induction l with
  | nil => intro acc; simp
  | cons c l ihl =>
    intro acc
    simp only [List.foldl_cons, List.length_cons]
    rw [ihl (step acc c), ihl (step 0 c), hstep, hstep]
    ring

/-- Parsing inverts decimal rendering. -/
theorem parseNat_natDigits (n : ℕ) : parseNat (natDigits n) = n := by
  induction n using Nat.strong_induction_on with
  | _ n ih =>
    rw [natDigits_eq]
    by_cases h : n < 10
    · simp [h, parseNat, digitChar_toNat n h]
    · have hdiv : n / 10 < n := Nat.div_lt_self (by omega) (by omega)
      simp only [h, if_false, parseNat, List.foldl_append, List.foldl_cons, List.foldl_nil]
      have := ih (n / 10) hdiv
      unfold parseNat at this
      rw [this, digitChar_toNat (n % 10) (Nat.mod_lt n (by omega))]
      omega

/-- Decimal rendering is injective. -/
theorem natDigits_inj {m n : ℕ} (h : natDigits m = natDigits n) : m = n := by
  have := parseNat_natDigits m
  rw [h, parseNat_natDigits] at this
  exact this.symm

/-- Parsing ignores one leading zero character. -/
theorem parseNat_cons_zero (l : List Char) : parseNat ('0' :: l) = parseNat l := by
  simp [parseNat]

/-- Parsing inverts zero-padded rendering. -/
theorem parseNat_pad2 (n : ℕ) : parseNat (pad2 n) = n := by
  unfold pad2
  by_cases h : n < 10
  · simp [h, parseNat_cons_zero, parseNat_natDigits]
  · simp [h, parseNat_natDigits]

/-- Digit characters are not the colon. -/
theorem digitChar_ne_colon : ∀ k, k < 10 → digitChar k ≠ ':' := by decide

/-- The rendered form of a natural number contains no colon. -/
theorem natDigits_no_colon (n : ℕ) : ∀ c ∈ natDigits n, c ≠ ':' := by
  intro c hc
  obtain ⟨k, hk, rfl⟩ := natDigits_mem n c hc
  exact digitChar_ne_colon k hk

/-- A zero-padded field contains no colon. -/
theorem pad2_no_colon (n : ℕ) : ∀ c ∈ pad2 n, c ≠ ':' := by
  intro c hc
  unfold pad2 at hc
  by_cases h : n < 10
  · simp only [h, if_true, List.mem_cons] at hc
    rcases hc with rfl | hc
    · decide
    · exact natDigits_no_colon n c hc
  · simp only [h, if_false] at hc
    exact natDigits_no_colon n c hc

/-- Splitting a colon-free string yields that single field. -/
theorem splitOnColon_no_colon :
    ∀ a : List Char, (∀ c ∈ a, c ≠ ':') → splitOnColon a = [a] := by
  intro a
  induction a with
  | nil => intro _; rfl
  | cons c rest ih =>
    intro h
    have hc : c ≠ ':' := h c (List.mem_cons_self c rest)
    have hrest := ih fun x hx => h x (List.mem_cons_of_mem c hx)
    simp [splitOnColon, hc, hrest]

/-- Splitting past a colon-free prefix peels off that field. -/
theorem splitOnColon_append :
    ∀ a b : List Char, (∀ c ∈ a, c ≠ ':') →
      splitOnColon (a ++ ':' :: b) = a :: splitOnColon b := by
  intro a
  induction a with
  | nil => intro b _; simp [splitOnColon]
  | cons c rest ih =>
    intro b h
    have hc : c ≠ ':' := h c (List.mem_cons_self c rest)
    have hrest := ih b fun x hx => h x (List.mem_cons_of_mem c hx)
    simp [splitOnColon, hc, hrest]

/-- A rendered timestamp splits into exactly its three rendered fields. -/
theorem splitOnColon_format_time (s : ℕ) :
    splitOnColon (format_time s) =
      [pad2 (s / 3600), pad2 (s % 3600 / 60), pad2 (s % 60)] := by
  unfold format_time
  rw [splitOnColon_append _ _ (pad2_no_colon _), splitOnColon_append _ _ (pad2_no_colon _),
    splitOnColon_no_colon _ (pad2_no_colon _)]

/-- Re-parsing a rendered timestamp recovers the rendered second count, for
every natural number of seconds. -/
theorem parse_time_format_time (s : ℕ) : parse_time (format_time s) = s := by
  unfold parse_time
  rw [splitOnColon_format_time]
  simp only [List.map_cons, List.map_nil, parseNat_pad2]
  omega

/-- The ranked list permutes the per-window scores. -/
theorem ranked_perm (L : ℕ → ℚ) (d : ℚ) :
    (ranked L d).Perm (loudness_scores L (duration_seconds d)) :=
  List.perm_insertionSort peakGE (loudness_scores L (duration_seconds d))

/-- The ranked list has one entry per whole-second window. -/
theorem ranked_length (L : ℕ → ℚ) (d : ℚ) : (ranked L d).length = duration_seconds d := by
  rw [(ranked_perm L d).length_eq]
  simp [loudness_scores]

/-- The ranked list is sorted under the descending lexicographic
comparison. -/
theorem ranked_sorted (L : ℕ → ℚ) (d : ℚ) : (ranked L d).Sorted peakGE :=
  List.sorted_insertionSort peakGE (loudness_scores L (duration_seconds d))

/-- The window indices of the ranked list are pairwise distinct. -/
theorem ranked_pairwise_ne (L : ℕ → ℚ) (d : ℚ) :
    (ranked L d).Pairwise fun a b => a.2 ≠ b.2 := by
  have hsym : Symmetric fun a b : ℚ × ℕ => a.2 ≠ b.2 := fun a b h => h.symm
  rw [(ranked_perm L d).pairwise_iff fun h => hsym h]
  unfold loudness_scores
  rw [List.pairwise_map]
  exact (List.pairwise_lt_range _).imp fun h => Nat.ne_of_lt h

/-- Every entry of the ranked list is a scored window: its index is below
the truncated duration and its loudness value is the window's loudness. -/
theorem ranked_mem (L : ℕ → ℚ) (d : ℚ) :
    ∀ p ∈ ranked L d, p.2 < duration_seconds d ∧ p.1 = L p.2 := by
  intro p hp
  rw [(ranked_perm L d).mem_iff] at hp
  unfold loudness_scores at hp
  obtain ⟨i, hi, rfl⟩ := List.mem_map.1 hp
  exact ⟨List.mem_range.1 hi, rfl⟩

/-- Every scored window appears in the ranked list. -/
theorem mem_ranked (L : ℕ → ℚ) (d : ℚ) {i : ℕ} (hi : i < duration_seconds d) :
    (L i, i) ∈ ranked L d := by
  rw [(ranked_perm L d).mem_iff]
  unfold loudness_scores
  exact List.mem_map.2 ⟨i, List.mem_range.2 hi, rfl⟩

/-- A strictly greater tuple cannot be weakly below. -/
theorem peakGT_asymm {a b : ℚ × ℕ} (h1 : peakGT a b) (h2 : peakGE b a) : False := by
  rcases h1 with h1 | ⟨h1, h1lt⟩ <;> rcases h2 with h2 | ⟨h2, h2le⟩
  · exact lt_asymm h1 h2
  · exact absurd (h2 ▸ h1) (lt_irrefl _)
  · exact absurd (h1 ▸ h2) (lt_irrefl _)
  · omega

/-- Position of a tuple in a ranked list (the rank Python's sorted output
assigns to it). -/
def rankIndex (l : List (ℚ × ℕ)) (p : ℚ × ℕ) : ℕ :=
  @List.indexOf (ℚ × ℕ) instBEqOfDecidableEq p l

/-- In the ranked list a strictly greater tuple sits strictly earlier. -/
theorem ranked_rankIndex_lt (L : ℕ → ℚ) (d : ℚ) {a b : ℚ × ℕ}
    (ha : a ∈ ranked L d) (hb : b ∈ ranked L d) (hab : peakGT a b) :
    rankIndex (ranked L d) a < rankIndex (ranked L d) b := by
  unfold rankIndex
  by_contra hcon
  push_neg at hcon
  rcases eq_or_lt_of_le hcon with heq | hlt
  · have : b = a := (List.indexOf_inj hb ha).1 heq
    subst this
    rcases hab with h | ⟨h, hlt2⟩
    · exact lt_irrefl _ h
    · omega
  · have hblt : @List.indexOf (ℚ × ℕ) instBEqOfDecidableEq b (ranked L d) <
        (ranked L d).length := List.indexOf_lt_length.2 hb
    have halt : @List.indexOf (ℚ × ℕ) instBEqOfDecidableEq a (ranked L d) <
        (ranked L d).length := List.indexOf_lt_length.2 ha
    have hfin : (⟨_, hblt⟩ : Fin (ranked L d).length) < ⟨_, halt⟩ := Fin.mk_lt_mk.2 hlt
    have hge := (ranked_sorted L d).rel_get_of_lt hfin
    rw [List.indexOf_get, List.indexOf_get] at hge
    exact peakGT_asymm hab hge

/-- A duration below one second truncates to zero whole windows. -/
theorem duration_seconds_eq_zero {d : ℚ} (h : d < 1) : duration_seconds d = 0 := by
  unfold duration_seconds
  rw [Int.toNat_eq_zero]
  have : ⌊d⌋ < 1 := Int.floor_lt.2 (by exact_mod_cast h)
  omega

/-- A duration of at least one second yields at least one whole window. -/
theorem duration_seconds_pos {d : ℚ} (h : 1 ≤ d) : 1 ≤ duration_seconds d := by
  unfold duration_seconds
  have : (1 : ℤ) ≤ ⌊d⌋ := Int.le_floor.2 (by exact_mod_cast h)
  omega

/-- The peak list length is the minimum of five and the window count. -/
theorem extract_audio_peaks_length (L : ℕ → ℚ) (d : ℚ) :
    (extract_audio_peaks L d).length = min 5 (duration_seconds d) := by
  unfold extract_audio_peaks top_peaks
  rw [List.length_map, List.length_take, ranked_length]

/-- Characters outside the decimal code range are not digit characters. -/
theorem not_digitCh {c : Char} (h : c.toNat < 48 ∨ 57 < c.toNat) : ¬ isDigitCh c := by
  rintro ⟨k, hk, rfl⟩
  rw [digitChar_toNat k hk] at h
  omega

/-- Every character of a rendered number is a digit character. -/
theorem natDigits_digitCh (n : ℕ) : ∀ c ∈ natDigits n, isDigitCh c := by
  intro c hc
  obtain ⟨k, hk, rfl⟩ := natDigits_mem n c hc
  exact ⟨k, hk, rfl⟩

/-- Two digit strings followed by non-digit-headed tails can only be equal
componentwise. -/
theorem digits_split :
    ∀ a b : List Char, (∀ c ∈ a, isDigitCh c) → (∀ c ∈ b, isDigitCh c) →
      ∀ c1 c2 : Char, ∀ e1 e2 : List Char, ¬ isDigitCh c1 → ¬ isDigitCh c2 →
        a ++ c1 :: e1 = b ++ c2 :: e2 → a = b ∧ c1 = c2 ∧ e1 = e2 := by
  intro a
  induction a with
  | nil =>
    intro b ha hb c1 c2 e1 e2 h1 h2 heq
    cases b with
    | nil =>
      simp only [List.nil_append, List.cons.injEq] at heq
      exact ⟨rfl, heq.1, heq.2⟩
    | cons x b =>
      simp only [List.nil_append, List.cons_append, List.cons.injEq] at heq
      exact absurd (heq.1 ▸ hb x (List.mem_cons_self x b)) h1
  | cons x a ih =>
    intro b ha hb c1 c2 e1 e2 h1 h2 heq
    cases b with
    | nil =>
      simp only [List.cons_append, List.nil_append, List.cons.injEq] at heq
      exact absurd (heq.1 ▸ ha x (List.mem_cons_self x a)) h2
    | cons y b =>
      simp only [List.cons_append, List.cons.injEq] at heq
      obtain ⟨rfl, heq2⟩ := heq
      obtain ⟨hab, hc, he⟩ := ih b (fun c hc => ha c (List.mem_cons_of_mem x hc))
        (fun c hc => hb c (List.mem_cons_of_mem x hc)) c1 c2 e1 e2 h1 h2 heq2
      exact ⟨by rw [hab], hc, he⟩

/-- The dot separating name from extension is not a digit character. -/
theorem dot_not_digitCh : ¬ isDigitCh '.' := not_digitCh (Or.inl (by decide))

/-- Equal token-plus-extension temporary names have equal tokens and equal
extensions. -/
theorem tempName_inj {u v : ℕ} {e1 e2 : List Char}
    (h : tempName u ('.' :: e1) = tempName v ('.' :: e2)) : u = v ∧ e1 = e2 := by
  unfold tempName at h
  rw [List.append_assoc, List.append_assoc] at h
  have h2 := List.append_cancel_left h
  obtain ⟨hd, _, he⟩ := digits_split (natDigits u) (natDigits v)
    (natDigits_digitCh u) (natDigits_digitCh v) '.' '.' e1 e2
    dot_not_digitCh dot_not_digitCh h2
  exact ⟨natDigits_inj hd, he⟩

/-- Equal token-named process_video.py video files have equal tokens. -/
theorem pv_video_file_inj {u v : ℕ} (h : pv_video_file u = pv_video_file v) : u = v := by
  unfold pv_video_file at h
  obtain ⟨hd, _, _⟩ := digits_split (natDigits u) (natDigits v)
    (natDigits_digitCh u) (natDigits_digitCh v) '.' '.' (chars ("mp4")) (chars ("mp4"))
    dot_not_digitCh dot_not_digitCh h
  exact natDigits_inj hd

/-- Temporary names of main.py runs with distinct per-category tokens are
pairwise disjoint across the two runs. -/
theorem main_run_paths_disjoint {u1 u2 u3 v1 v2 v3 : ℕ}
    (h1 : u1 ≠ v1) (h2 : u2 ≠ v2) (h3 : u3 ≠ v3) :
    List.Disjoint (main_run_paths u1 u2 u3) (main_run_paths v1 v2 v3) := by
  intro a ha hb
  simp only [main_run_paths, List.mem_cons, List.not_mem_nil, or_false] at ha hb
  unfold main_video_file main_audio_file main_frame_file at ha hb
  rcases ha with rfl | rfl | rfl <;> rcases hb with hb | hb | hb <;>
    obtain ⟨hu, he⟩ := tempName_inj hb <;>
    first
      | exact h1 hu
      | exact h2 hu
      | exact h3 hu
      | exact absurd he (by decide)

/-- A zero-padded field below one hundred has width exactly two. -/
theorem pad2_length {n : ℕ} (h : n < 100) : (pad2 n).length = 2 := by
  unfold pad2
  by_cases h10 : n < 10
  · rw [if_pos h10, natDigits_eq, if_pos h10]
    rfl
  · have hd : n / 10 < 10 := by omega
    rw [if_neg h10, natDigits_eq, if_neg h10, natDigits_eq, if_pos hd]
    rfl

/-- Claim C1: for every audio artifact of duration d seconds, the loudness
analyzer extract_audio_peaks returns a peak list of length exactly
min 5 (floor d); in particular for d below one second the peak list is
empty. -/
theorem claim_C1_peak_list_length (L : ℕ → ℚ) (d : ℚ) (h : 0 ≤ d) :
    (extract_audio_peaks L d).length = min 5 (duration_seconds d) ∧
    (d < 1 → extract_audio_peaks L d = []) := by
  refine ⟨extract_audio_peaks_length L d, fun hlt => ?_⟩
  have hlen := extract_audio_peaks_length L d
  rw [duration_seconds_eq_zero hlt] at hlen
  simp only [Nat.min_zero] at hlen
  exact List.length_eq_zero.1 hlen

/-- Witness for claim C1 at a concrete zero-length audio artifact. -/
theorem claim_C1_peak_list_length_witness :
    (0 : ℚ) ≤ 0 ∧
      ((extract_audio_peaks (fun _ => 0) 0).length = min 5 (duration_seconds 0) ∧
        ((0 : ℚ) < 1 → extract_audio_peaks (fun _ => 0) 0 = [])) :=
  ⟨by decide, claim_C1_peak_list_length (fun _ => 0) 0 (by decide)⟩

/-- Claim C3: the peak list is sorted by loudness descending, its window
indices are pairwise distinct, and every window index is below the
truncated duration. -/
theorem claim_C3_peak_list_invariants (L : ℕ → ℚ) (d : ℚ) :
    ((top_peaks L d).Pairwise fun a b => b.1 ≤ a.1) ∧
    ((top_peaks L d).Pairwise fun a b => a.2 ≠ b.2) ∧
    ∀ p ∈ top_peaks L d, p.2 < duration_seconds d := by
  refine ⟨?_, ?_, ?_⟩
  · have hp : (top_peaks L d).Pairwise peakGE :=
      (ranked_sorted L d).sublist (List.take_sublist 5 (ranked L d))
    exact hp.imp fun h => by
      rcases h with h | ⟨h, _⟩
      · exact le_of_lt h
      · exact le_of_eq h
  · exact (ranked_pairwise_ne L d).sublist (List.take_sublist 5 (ranked L d))
  · intro p hp
    exact (ranked_mem L d p (List.mem_of_mem_take hp)).1

/-- Witness for claim C3 at a concrete three-second audio artifact. -/
theorem claim_C3_peak_list_invariants_witness :
    ((top_peaks (fun i => -(i : ℚ)) 3).Pairwise fun a b => b.1 ≤ a.1) ∧
    ((top_peaks (fun i => -(i : ℚ)) 3).Pairwise fun a b => a.2 ≠ b.2) ∧
    ∀ p ∈ top_peaks (fun i => -(i : ℚ)) 3, p.2 < duration_seconds 3 :=
  claim_C3_peak_list_invariants (fun i => -(i : ℚ)) 3

/-- Claim C4: the ranking orders windows by the pair of loudness and window
index descending, so of two equally loud windows the later one is ranked
strictly ahead of the earlier one. -/
theorem claim_C4_tie_break_later_wins (L : ℕ → ℚ) (d : ℚ) (i j : ℕ) (hij : i < j)
    (hj : j < duration_seconds d) (heq : L i = L j) :
    rankIndex (ranked L d) (L j, j) < rankIndex (ranked L d) (L i, i) :=
  ranked_rankIndex_lt L d (mem_ranked L d hj) (mem_ranked L d (lt_trans hij hj))
    (Or.inr ⟨heq, hij⟩)

/-- Witness for claim C4 at a concrete two-second equal-loudness artifact. -/
theorem claim_C4_tie_break_later_wins_witness :
    (0 < 1 ∧ 1 < duration_seconds 2) ∧
      rankIndex (ranked (fun _ => (0 : ℚ)) 2) ((fun _ => (0 : ℚ)) 1, 1) <
        rankIndex (ranked (fun _ => (0 : ℚ)) 2) ((fun _ => (0 : ℚ)) 0, 0) :=
  ⟨⟨by decide, by decide⟩,
    claim_C4_tie_break_later_wins (fun _ => (0 : ℚ)) 2 0 1 (by decide) (by decide) rfl⟩

/-- Claim C5: rendering a window index below twenty-four hours to HH:MM:SS
and re-parsing it recovers the index exactly, and the rendered minute and
second fields are below sixty and zero-padded to width two. -/
theorem claim_C5_timestamp_round_trip (s : ℕ) (h : s < 24 * 3600) :
    parse_time (format_time s) = s ∧
    splitOnColon (format_time s) = [pad2 (s / 3600), pad2 (s % 3600 / 60), pad2 (s % 60)] ∧
    s % 3600 / 60 ≤ 59 ∧ s % 60 ≤ 59 ∧
    (pad2 (s % 3600 / 60)).length = 2 ∧ (pad2 (s % 60)).length = 2 :=
  ⟨parse_time_format_time s, splitOnColon_format_time s, by omega, by omega,
    pad2_length (by omega), pad2_length (by omega)⟩

/-- Witness for claim C5 at the concrete window index 3661. -/
theorem claim_C5_timestamp_round_trip_witness :
    3661 < 24 * 3600 ∧
      (parse_time (format_time 3661) = 3661 ∧
        splitOnColon (format_time 3661) =
          [pad2 (3661 / 3600), pad2 (3661 % 3600 / 60), pad2 (3661 % 60)] ∧
        3661 % 3600 / 60 ≤ 59 ∧ 3661 % 60 ≤ 59 ∧
        (pad2 (3661 % 3600 / 60)).length = 2 ∧ (pad2 (3661 % 60)).length = 2) :=
  ⟨by decide, claim_C5_timestamp_round_trip 3661 (by decide)⟩

/-- Claim C8: for audio of duration zero the loudness analyzer returns the
empty peak list (no error is raised), and the run never invokes the frame
extractor. -/
theorem claim_C8_zero_duration (e : Env) (h : e.duration = 0) :
    extract_audio_peaks e.loudness e.duration = [] ∧ (process_video e).frameCalls = [] := by
  have hempty : extract_audio_peaks e.loudness e.duration = [] := by
    have hlen := extract_audio_peaks_length e.loudness e.duration
    rw [duration_seconds_eq_zero (by rw [h]; norm_num)] at hlen
    simp only [Nat.min_zero] at hlen
    exact List.length_eq_zero.1 hlen
  refine ⟨hempty, ?_⟩
  have hh : (extract_audio_peaks e.loudness e.duration).head? = none := by
    rw [hempty]; rfl
  unfold process_video
  rw [hh]
  split_ifs <;> rfl

/-- Claim C10: for audio of duration at least one second the analyzer
returns a non-empty peak list, so the orchestrator's subscript of the first
peak cannot fail: the index-error outcome is unreachable. -/
theorem claim_C10_first_peak_safe (e : Env) (h : 1 ≤ e.duration) :
    extract_audio_peaks e.loudness e.duration ≠ [] ∧
    (process_video e).outcome ≠ Outcome.failure Stage.peakIndex := by
  have hne : extract_audio_peaks e.loudness e.duration ≠ [] := by
    intro hnil
    have hlen := extract_audio_peaks_length e.loudness e.duration
    rw [hnil] at hlen
    have := duration_seconds_pos h
    simp only [List.length_nil] at hlen
    omega
  refine ⟨hne, ?_⟩
  obtain ⟨t, ts, hcons⟩ : ∃ t ts, extract_audio_peaks e.loudness e.duration = t :: ts := by
    cases hx : extract_audio_peaks e.loudness e.duration with
    | nil => exact absurd hx hne
    | cons t ts => exact ⟨t, ts, rfl⟩
  have hh : (extract_audio_peaks e.loudness e.duration).head? = some t := by
    rw [hcons]; rfl
  unfold process_video
  rw [hh]
  split_ifs <;> simp

/-- Witness for claim C8 at the concrete zero-duration environment. -/
theorem claim_C8_zero_duration_witness :
    envZero.duration = 0 ∧
      (extract_audio_peaks envZero.loudness envZero.duration = [] ∧
        (process_video envZero).frameCalls = []) :=
  ⟨by decide, claim_C8_zero_duration envZero (by decide)⟩

/-- Witness for claim C10 at the concrete one-second environment. -/
theorem claim_C10_first_peak_safe_witness :
    1 ≤ envOk.duration ∧
      (extract_audio_peaks envOk.loudness envOk.duration ≠ [] ∧
        (process_video envOk).outcome ≠ Outcome.failure Stage.peakIndex) :=
  ⟨by decide, claim_C10_first_peak_safe envOk (by decide)⟩

/-- Counterexample to claim C2: in the concrete run whose transcription
stage fails, the video and audio artifacts were created but the run
deletes nothing, so not every created artifact is deleted. -/
theorem claim_C2_counterexample :
    (process_video envC2).outcome = Outcome.failure Stage.transcribe ∧
    Artifact.video ∈ (process_video envC2).created ∧
    Artifact.video ∉ (process_video envC2).deleted := by decide

/-- Claim C2 as amended: on any stage failure the caller receives a
structured error naming the failing stage and never a partial response,
but the orchestrator deletes no artifacts at all on the failure paths;
cleanup happens only on success. -/
theorem claim_C2_failure_no_cleanup (e : Env) (s : Stage)
    (h : (process_video e).outcome = Outcome.failure s) :
    (process_video e).deleted = [] := by
  cases h1 : e.downloadOk <;> cases h2 : e.audioWriteOk <;> cases h3 : e.analyzeOk <;>
    cases h4 : e.transcribeOk <;> cases h5 : e.frameOk <;>
    cases hx : (extract_audio_peaks e.loudness e.duration).head? <;>
    simp_all [process_video]

/-- Witness for the amended claim C2 at the concrete failing run. -/
theorem claim_C2_failure_no_cleanup_witness :
    (process_video envC2).outcome = Outcome.failure Stage.transcribe ∧
      (process_video envC2).deleted = [] :=
  ⟨by decide, claim_C2_failure_no_cleanup envC2 Stage.transcribe (by decide)⟩

/-- Counterexample to claim C6: in the concrete run with three seconds of
audio whose transcription fails, the peak list is non-empty and yet the
frame extractor is never invoked. -/
theorem claim_C6_counterexample :
    extract_audio_peaks envC6.loudness envC6.duration ≠ [] ∧
    (process_video envC6).frameCalls = [] := by decide

/-- Claim C6 as amended: in every run that reaches the frame-extraction
stage (download, audio extraction, analysis and transcription succeeded)
with a non-empty peak list, the frame extractor is invoked exactly once,
with offset equal to the window index of the first (loudest) peak. -/
theorem claim_C6_frame_offset (e : Env) (h1 : e.downloadOk = true)
    (h2 : e.audioWriteOk = true) (h3 : e.analyzeOk = true) (h4 : e.transcribeOk = true)
    (p : ℚ × ℕ) (hp : (top_peaks e.loudness e.duration).head? = some p) :
    (process_video e).frameCalls = [p.2] := by
  have hpk : (extract_audio_peaks e.loudness e.duration).head? = some (format_time p.2) := by
    unfold extract_audio_peaks
    rw [List.head?_map _ _, hp]
    rfl
  cases hf : e.frameOk <;>
    simp [process_video, h1, h2, h3, h4, hf, hpk, parse_time_format_time]

/-- Witness for the amended claim C6 at the concrete successful run. -/
theorem claim_C6_frame_offset_witness :
    (top_peaks envOk.loudness envOk.duration).head? = some (0, 0) ∧
      (process_video envOk).frameCalls = [(0, 0).2] :=
  ⟨by decide,
    claim_C6_frame_offset envOk (by decide) (by decide) (by decide) (by decide) (0, 0)
      (by decide)⟩

/-- Claim C7: every successful run deletes exactly the video and audio
artifacts, retains the frame artifact, and created exactly the three run
artifacts. -/
theorem claim_C7_success_cleanup (e : Env) (resp : VideoResponse)
    (h : (process_video e).outcome = Outcome.success resp) :
    (process_video e).deleted = [Artifact.video, Artifact.audio] ∧
    Artifact.frame ∉ (process_video e).deleted ∧
    (process_video e).created = [Artifact.video, Artifact.audio, Artifact.frame] := by
  cases h1 : e.downloadOk <;> cases h2 : e.audioWriteOk <;> cases h3 : e.analyzeOk <;>
    cases h4 : e.transcribeOk <;> cases h5 : e.frameOk <;>
    cases hx : (extract_audio_peaks e.loudness e.duration).head? <;>
    simp_all [process_video]

/-- Witness for claim C7 at the concrete successful run. -/
theorem claim_C7_success_cleanup_witness :
    (process_video envOk).outcome = Outcome.success respOk ∧
      ((process_video envOk).deleted = [Artifact.video, Artifact.audio] ∧
        Artifact.frame ∉ (process_video envOk).deleted ∧
        (process_video envOk).created = [Artifact.video, Artifact.audio, Artifact.frame]) :=
  ⟨by decide, claim_C7_success_cleanup envOk respOk (by decide)⟩

/-- Counterexample to claim C9: two distinct runs of process_video.py
share the fixed audio path temp.mp3, so their temporary artifact paths are
not disjoint. -/
theorem claim_C9_counterexample :
    chars ("temp.mp3") ∈ pv_run_paths 0 ∧ chars ("temp.mp3") ∈ pv_run_paths 1 ∧
    ¬ List.Disjoint (pv_run_paths 0) (pv_run_paths 1) := by
  have hm0 : chars ("temp.mp3") ∈ pv_run_paths 0 := by decide
  have hm1 : chars ("temp.mp3") ∈ pv_run_paths 1 := by decide
  exact ⟨hm0, hm1, fun hd => hd hm0 hm1⟩

/-- Claim C9 as amended: the three temporary paths of a main.py run with
fresh tokens are disjoint from those of any other run with distinct
tokens, and in process_video.py only the video path is per-run unique
while the fixed audio path is shared by every run. -/
theorem claim_C9_path_isolation (u1 u2 u3 v1 v2 v3 : ℕ)
    (h1 : u1 ≠ v1) (h2 : u2 ≠ v2) (h3 : u3 ≠ v3) :
    List.Disjoint (main_run_paths u1 u2 u3) (main_run_paths v1 v2 v3) ∧
    pv_video_file u1 ≠ pv_video_file v1 ∧
    chars ("temp.mp3") ∈ pv_run_paths u1 ∧ chars ("temp.mp3") ∈ pv_run_paths v1 := by
  refine ⟨main_run_paths_disjoint h1 h2 h3, fun hcon => h1 (pv_video_file_inj hcon), ?_, ?_⟩ <;>
    simp [pv_run_paths]

/-- Witness for the amended claim C9 at concrete distinct tokens. -/
theorem claim_C9_path_isolation_witness :
    ((0 : ℕ) ≠ 3 ∧ (1 : ℕ) ≠ 4 ∧ (2 : ℕ) ≠ 5) ∧
      (List.Disjoint (main_run_paths 0 1 2) (main_run_paths 3 4 5) ∧
        pv_video_file 0 ≠ pv_video_file 3 ∧
        chars ("temp.mp3") ∈ pv_run_paths 0 ∧ chars ("temp.mp3") ∈ pv_run_paths 3) :=
  ⟨⟨by decide, by decide, by decide⟩,
    claim_C9_path_isolation 0 1 2 3 4 5 (by decide) (by decide) (by decide)⟩
